import Mathlib

/-!
Verification of the normadist library (TypeScript), shallowly embedded in Lean 4.

JavaScript numbers are modelled by `JSNum`: NaN, the two infinities, and finite
values idealised as real numbers.  The arithmetic, comparison and Math-library
operations below follow the IEEE-754 / ECMAScript semantics on these four
constructors (finite rounding is idealised away: finite arithmetic is exact
real arithmetic).  Numeric literals from the source are read at face value as
exact decimal constants.
-/

inductive JSNum : Type
  | nan : JSNum
  | posInf : JSNum
  | negInf : JSNum
  | num : ℝ → JSNum

namespace JSNum

noncomputable section

/-- JS unary minus. -/
def jsNeg : JSNum → JSNum
  | nan => nan
  | posInf => negInf
  | negInf => posInf
  | num r => num (-r)

/-- JS addition. -/
def jsAdd : JSNum → JSNum → JSNum
  | nan, _ => nan
  | _, nan => nan
  | posInf, negInf => nan
  | negInf, posInf => nan
  | posInf, _ => posInf
  | negInf, _ => negInf
  | num _, posInf => posInf
  | num _, negInf => negInf
  | num a, num b => num (a + b)

/-- JS subtraction (`a - b` behaves as `a + (-b)`). -/
def jsSub (a b : JSNum) : JSNum := jsAdd a (jsNeg b)

/-- JS multiplication. -/
def jsMul : JSNum → JSNum → JSNum
  | nan, _ => nan
  | _, nan => nan
  | posInf, posInf => posInf
  | posInf, negInf => negInf
  | negInf, posInf => negInf
  | negInf, negInf => posInf
  | posInf, num r => if 0 < r then posInf else if r < 0 then negInf else nan
  | num r, posInf => if 0 < r then posInf else if r < 0 then negInf else nan
  | negInf, num r => if 0 < r then negInf else if r < 0 then posInf else nan
  | num r, negInf => if 0 < r then negInf else if r < 0 then posInf else nan
  | num a, num b => num (a * b)

/-- JS division (zero is treated as +0). -/
def jsDiv : JSNum → JSNum → JSNum
  | nan, _ => nan
  | _, nan => nan
  | posInf, posInf => nan
  | posInf, negInf => nan
  | negInf, posInf => nan
  | negInf, negInf => nan
  | posInf, num r => if 0 ≤ r then posInf else negInf
  | negInf, num r => if 0 ≤ r then negInf else posInf
  | num _, posInf => num 0
  | num _, negInf => num 0
  | num a, num b =>
      if b = 0 then (if a = 0 then nan else if 0 < a then posInf else negInf)
      else num (a / b)

/-- JS `Math.abs`. -/
def jsAbs : JSNum → JSNum
  | nan => nan
  | posInf => posInf
  | negInf => posInf
  | num r => num |r|

/-- JS `Math.exp`. -/
def jsExp : JSNum → JSNum
  | nan => nan
  | posInf => posInf
  | negInf => num 0
  | num r => num (Real.exp r)

/-- JS `Math.log` (natural logarithm). -/
def jsLog : JSNum → JSNum
  | nan => nan
  | posInf => posInf
  | negInf => nan
  | num r => if 0 < r then num (Real.log r) else if r = 0 then negInf else nan

/-- JS `Math.sqrt` (NaN on negative arguments). -/
def jsSqrt : JSNum → JSNum
  | nan => nan
  | posInf => posInf
  | negInf => nan
  | num r => if 0 ≤ r then num (Real.sqrt r) else nan

/-- JS `Math.atan`. -/
def jsAtan : JSNum → JSNum
  | nan => nan
  | posInf => num (Real.pi / 2)
  | negInf => num (-(Real.pi / 2))
  | num r => num (Real.arctan r)

/-- JS `Math.tanh`. -/
def jsTanh : JSNum → JSNum
  | nan => nan
  | posInf => num 1
  | negInf => num (-1)
  | num r => num (Real.tanh r)

/-- JS `Math.pow` restricted to natural exponents (the only use in the source:
`Math.pow(-1, index)` and `Math.pow(x, index << 1)`).  `x ** 0 = 1` for every
`x`, including NaN and the infinities, as in ECMAScript. -/
def jsPowNat (x : JSNum) (n : ℕ) : JSNum :=
  if n = 0 then num 1
  else match x with
    | nan => nan
    | posInf => posInf
    | negInf => if n % 2 = 0 then posInf else negInf
    | num r => num (r ^ n)

/-- JS `<` as a boolean (false whenever NaN is involved). -/
def jsLtB : JSNum → JSNum → Bool
  | nan, _ => false
  | _, nan => false
  | posInf, _ => false
  | negInf, negInf => false
  | negInf, _ => true
  | num _, posInf => true
  | num _, negInf => false
  | num a, num b => decide (a < b)

/-- JS `<=` as a boolean (false whenever NaN is involved). -/
def jsLeB : JSNum → JSNum → Bool
  | nan, _ => false
  | _, nan => false
  | posInf, posInf => true
  | posInf, _ => false
  | negInf, _ => true
  | num _, posInf => true
  | num _, negInf => false
  | num a, num b => decide (a ≤ b)

/-- JS `>=` (same truth table as the flipped `<=`, including on NaN). -/
def jsGeB (a b : JSNum) : Bool := jsLeB b a

/-- JS `>` (same truth table as the flipped `<`, including on NaN). -/
def jsGtB (a b : JSNum) : Bool := jsLtB b a

/-- JS strict equality `===` on numbers (false whenever NaN is involved). -/
def jsEqB : JSNum → JSNum → Bool
  | num a, num b => decide (a = b)
  | posInf, posInf => true
  | negInf, negInf => true
  | _, _ => false

/-- JS `Number.isNaN`. -/
def jsIsNaN : JSNum → Bool
  | nan => true
  | _ => false

/-- JS `Math.floor` (identity on NaN and the infinities). -/
def jsFloor : JSNum → JSNum
  | nan => nan
  | posInf => posInf
  | negInf => negInf
  | num r => num (⌊r⌋ : ℤ)

end

end JSNum

open JSNum

noncomputable section

/-! ### util/factorial.ts -/

/-- The precomputed table `everySinxteenthFactorial` of `factorial.ts`:
1!, 16!, 32!, …, 160! as the double literals written in the source, read at
face value.  Indices past 10 are never accessed (`fx ≤ 170` gives
`fx >> 4 ≤ 10`); they are mapped to 0. -/
def everySinxteenthFactorial : ℕ → ℝ
  | 0 => 1.0
  | 1 => 2.0922789888e13
  | 2 => 2.631308369336935e35
  | 3 => 1.2413915592536073e61
  | 4 => 1.2688693218588417e89
  | 5 => 7.156945704626381e118
  | 6 => 9.916779348709496e149
  | 7 => 1.974506857221074e182
  | 8 => 3.856204823625804e215
  | 9 => 5.5502938327393044e249
  | 10 => 4.7147236359920616e284
  | _ => 0

/-- The value `s * everySinxteenthFactorial[fx >> 4]` computed by `factorial`
for a nonnegative integer argument `n ≤ 170`: the loop
`for (index = 1 + (fx & ~0xf); index <= fx; index++) s *= index` is the fold
over `range' (16·(n/16)+1) (n+1−(16·(n/16)+1))`, multiplied by the table entry
at `n >> 4 = n / 16`. -/
def factorialValue (n : ℕ) : ℝ :=
  ((List.range' (16 * (n / 16) + 1) (n + 1 - (16 * (n / 16) + 1))).foldl
    (fun (s : ℝ) (i : ℕ) => s * (i : ℝ)) 1) * everySinxteenthFactorial (n / 16)

/-- The error thrown by `factorial` for a negative argument; the thrown message
interpolates the argument, which is carried as the payload. -/
inductive FactorialError : Type
  | negativeArgument (x : JSNum) : FactorialError

/-- Function `factorial` from `factorial.ts`: throws for `x < 0`, propagates NaN,
returns +∞ for `floor(x) > 170`, and otherwise the table-times-product value
at `floor(x)`. -/
def factorial (x : JSNum) : Except FactorialError JSNum :=
  if jsLtB x (num 0) then .error (.negativeArgument x)
  else
    match x with
    | nan => .ok nan
    | posInf => .ok posInf
    | negInf => .ok nan   -- unreachable: `jsLtB negInf (num 0) = true`
    | num r => if 170 < ⌊r⌋₊ then .ok posInf else .ok (num (factorialValue ⌊r⌋₊))

/-- Function `factorial` specialised to a natural-number argument (as used by
`taylorErf`, whose loop index is a nonnegative integer): never throws. -/
def factorialOfNat (n : ℕ) : JSNum :=
  if 170 < n then posInf else num (factorialValue n)

/-! ### The four error-function strategies (distributions/normal.ts) -/

/-- The nested Horner polynomial in `t` from `chebyshevErf`'s exponent. -/
def chebPoly (t : ℝ) : ℝ :=
  t * (1.00002368 + t * (0.37409196 + t * (0.09678418 + t * (-0.18628806 + t *
    (0.27886807 + t * (-1.13520398 + t * (1.48851587 + t * (-0.82215223 + t *
      0.17087277))))))))

/-- Function `chebyshevErf` on a finite argument, as a real-valued function. -/
def chebR (x : ℝ) : ℝ :=
  if x = 0 then 0
  else
    let z := |x|
    let t := 2 / (2 + z)
    let r := t * Real.exp ((-z) * z - 1.26551223 + chebPoly t)
    if 0 ≤ x then 1 - r else r - 1

/-- Function `chebyshevErf` from `distributions/normal.ts` (identical to `erf` in
`util/erf.ts`): special-cases `x === 0`, computes from `z = |x|`,
`t = 2/(2+z)`, `r = t·exp(−z·z − 1.26551223 + poly(t))`, and restores the sign
by the `x >= 0` branch. -/
def chebyshevErf (x : JSNum) : JSNum :=
  if jsEqB x (num 0) then num 0
  else
    let z := jsAbs x
    let t := jsDiv (num 2) (jsAdd (num 2) z)
    let r := jsMul t (jsExp (jsAdd
      (jsSub (jsMul (jsNeg z) z) (num 1.26551223))
      (jsMul t (jsAdd (num 1.00002368) (jsMul t (jsAdd (num 0.37409196)
        (jsMul t (jsAdd (num 0.09678418) (jsMul t (jsAdd (num (-0.18628806))
          (jsMul t (jsAdd (num 0.27886807) (jsMul t (jsAdd (num (-1.13520398))
            (jsMul t (jsAdd (num 1.48851587) (jsMul t (jsAdd
              (num (-0.82215223)) (jsMul t (num 0.17087277))))))))))))))))))))
    if jsGeB x (num 0) then jsSub (num 1) r else jsSub r (num 1)

/-- One term of `taylorErf`'s loop body at index `index`:
`(s * x^(index<<1)) / (factorial(index) * ((index<<1) + 1))`. -/
def taylorTerm (x : JSNum) (index : ℕ) : JSNum :=
  jsDiv (jsMul (jsPowNat (num (-1)) index) (jsPowNat x (2 * index)))
    (jsMul (factorialOfNat index) (num (2 * (index : ℝ) + 1)))

/-- Function `taylorErf` from `distributions/normal.ts` (default degree 40):
`a = 1.1283791670955126 * x`, `b` accumulated over `index = 0 … degree`,
returning `a * b`. -/
def taylorErf (x : JSNum) (degree : ℕ := 40) : JSNum :=
  let a := jsMul (num 1.1283791670955126) x
  let b := (List.range (degree + 1)).foldl (fun b index => jsAdd b (taylorTerm x index)) (num 0)
  jsMul a b

/-- Function `vazquezLealErf` from `distributions/normal.ts`:
`tanh(a·x − c·atan(b·x))` with `a = 11.001696879181248`,
`b = 0.17789761643397722`, `c = 55.5`. -/
def vazquezLealErf (x : JSNum) : JSNum :=
  jsTanh (jsSub (jsMul (num 11.001696879181248) x)
    (jsMul (num 55.5) (jsAtan (jsMul (num 0.17789761643397722) x))))

/-- Function `soranzoErf` from `distributions/normal.ts`: computes `x2 = x·x`,
`x4 = x2·x2`, returns 1.0 when `x4 === Infinity`, otherwise
`f = sqrt(1 − exp((−x2·(a + b·x2))/(1 + c·x2 + d·x4)))` with the sign restored
by the `x >= 0` branch. -/
def soranzoErf (x : JSNum) : JSNum :=
  let x2 := jsMul x x
  let x4 := jsMul x2 x2
  if jsEqB x4 posInf then num 1
  else
    let f := jsSqrt (jsSub (num 1) (jsExp (jsDiv
      (jsMul (jsNeg x2) (jsAdd (num 1.2735457) (jsMul (num 0.1487936) x2)))
      (jsAdd (jsAdd (num 1) (jsMul (num 0.1480931) x2))
        (jsMul (num 5.16e-4) x4)))))
    if jsGeB x (num 0) then f else jsNeg f

/-! ### ierf.ts -/

/-- The body of one iteration of `acklamIerfc`'s refinement loop:
`err = chebyshevErf(x) - pp;
 x += err / (1.12837916709551257 * exp(-sqrt(x)) - x * err)`.
The error function evaluated here is the hard-coded `chebyshevErf` import. -/
def halleyStep (pp x : JSNum) : JSNum :=
  let err := jsSub (chebyshevErf x) pp
  jsAdd x (jsDiv err (jsSub
    (jsMul (num 1.12837916709551257) (jsExp (jsNeg (jsSqrt x))))
    (jsMul x err)))

/-- The initial rational-polynomial guess of `acklamIerfc`:
`-0.70711 * ((2.30753 + t*0.27061) / (1 + t*(0.99229 + t*0.04481)) - t)`. -/
def acklamInitGuess (t : JSNum) : JSNum :=
  jsMul (num (-0.70711)) (jsSub
    (jsDiv (jsAdd (num 2.30753) (jsMul t (num 0.27061)))
      (jsAdd (num 1) (jsMul t (jsAdd (num 0.99229) (jsMul t (num 0.04481))))))
    t)

/-- Function `acklamIerfc` from `ierf.ts`: saturation guards, reflection
`pp = p if p < 1 else 2 − p`, `t = sqrt(-2 * log(pp * 0.5))`, the initial
guess, a two-iteration refinement loop, and the final conditional negation. -/
def acklamIerfc (p : JSNum) : JSNum :=
  if jsGeB p (num 2) then num (-100)
  else if jsLeB p (num 0) then num 100
  else
    let pp := if jsLtB p (num 1) then p else jsSub (num 2) p
    let t := jsSqrt (jsMul (num (-2)) (jsLog (jsMul pp (num 0.5))))
    let x0 := acklamInitGuess t
    let x2 := (List.range 2).foldl (fun x _ => halleyStep pp x) x0
    if jsLtB p (num 1) then x2 else jsNeg x2

/-- The Halley update step exactly as claim C1 words it: the denominator
carries an extra factor `·x` after the exponential
(`err / (1.1283791670955126·exp(−√x)·x − x·err)`), with
`err = erf(x) − pp` and erf defaulting to the Chebyshev approximation. -/
def halleyStepClaimC1 (pp x : JSNum) : JSNum :=
  let err := jsSub (chebyshevErf x) pp
  jsAdd x (jsDiv err (jsSub
    (jsMul (jsMul (num 1.1283791670955126) (jsExp (jsNeg (jsSqrt x)))) x)
    (jsMul x err)))

/-! ### distributions/normal.ts: the NormalDistribution facade -/

/-- The validated value object: mean, standard deviation and the error
function strategy fixed at construction. -/
structure NormalDistribution : Type where
  mean : JSNum
  standardDeviation : JSNum
  erf : JSNum → JSNum

/-- The four throw sites of the private constructor.  The non-positive
standard-deviation message interpolates the offending value, carried as the
payload. -/
inductive ConstructionError : Type
  | meanNaN
  | standardDeviationNaN
  | standardDeviationNotPositive (value : JSNum)
  | erfMissing

/-- The constant `Math.SQRT1_2`. -/
def SQRT1_2 : ℝ := Real.sqrt (1 / 2)

namespace NormalDistribution

/-- The private constructor with its TypeScript default parameters.  An outer
`Option` models an omitted / `undefined` argument (which triggers the
default); for the `erf` parameter the inner `Option` distinguishes `null`
(`none`, which fails validation) from a supplied function. -/
def construct (mean : Option JSNum) (standardDeviation : Option JSNum)
    (erf : Option (Option (JSNum → JSNum))) :
    Except ConstructionError NormalDistribution :=
  let m := mean.getD (num 0)
  let s := standardDeviation.getD (num 1)
  let e := erf.getD (some chebyshevErf)
  if jsIsNaN m then .error .meanNaN
  else if jsIsNaN s then .error .standardDeviationNaN
  else if jsLeB s (num 0) then .error (.standardDeviationNotPositive s)
  else
    match e with
    | none => .error .erfMissing
    | some f => .ok ⟨m, s, f⟩

/-- Factory `NormalDistribution.of`: forwards its possibly-omitted arguments to the
constructor. -/
def of (mean : Option JSNum) (standardDeviation : Option JSNum)
    (erf : Option (Option (JSNum → JSNum))) :
    Except ConstructionError NormalDistribution :=
  construct mean standardDeviation erf

/-- Factory `NormalDistribution.standard`: constructs with explicit mean 0 and
standard deviation 1, forwarding the possibly-omitted `erf`. -/
def standard (erf : Option (Option (JSNum → JSNum))) :
    Except ConstructionError NormalDistribution :=
  construct (some (num 0)) (some (num 1)) erf

/-- Method `standardize(x) = (x − mean) / standardDeviation`. -/
def standardize (d : NormalDistribution) (x : JSNum) : JSNum :=
  jsDiv (jsSub x d.mean) d.standardDeviation

/-- Method `cdf(x) = (1 + erf(standardize(x) * Math.SQRT1_2)) / 2`. -/
def cdf (d : NormalDistribution) (x : JSNum) : JSNum :=
  jsDiv (jsAdd (num 1) (d.erf (jsMul (standardize d x) (num SQRT1_2)))) (num 2)

/-- Method `between(startInterval, endInterval)`: 0 on a degenerate or empty
interval, otherwise `cdf(endInterval) − cdf(startInterval)`. -/
def between (d : NormalDistribution) (startInterval endInterval : JSNum) : JSNum :=
  if jsGeB startInterval endInterval then num 0
  else jsSub (cdf d endInterval) (cdf d startInterval)

/-- The three throw sites of `isNormalDistributed` (its messages carry no
payload). -/
inductive CheckError : Type
  | meanNaN
  | standardDeviationNaN
  | standardDeviationNotPositive

/-- Static method `NormalDistribution.isNormalDistributed`: validation followed by the
three-sigma band checks against the theoretical constants, returning false at
the first band whose deviation is `>= tolerance` (default `0.5e-2`). -/
def isNormalDistributed (cdf : JSNum → JSNum) (mean standardDeviation : JSNum)
    (tolerance : Option JSNum) : Except CheckError Bool :=
  let tol := tolerance.getD (num 0.5e-2)
  if jsIsNaN mean then .error .meanNaN
  else if jsIsNaN standardDeviation then .error .standardDeviationNaN
  else if jsLeB standardDeviation (num 0) then .error .standardDeviationNotPositive
  else
    let inside1 := jsSub (cdf (jsAdd mean standardDeviation))
      (cdf (jsSub mean standardDeviation))
    if jsGeB (jsAbs (jsSub inside1 (num 0.6826894772086507))) tol then .ok false
    else
      let inside2 := jsSub (cdf (jsAdd mean (jsMul (num 2) standardDeviation)))
        (cdf (jsSub mean (jsMul (num 2) standardDeviation)))
      if jsGeB (jsAbs (jsSub inside2 (num 0.954499740219751))) tol then .ok false
      else
        let inside3 := jsSub (cdf (jsAdd mean (jsMul (num 3) standardDeviation)))
          (cdf (jsSub mean (jsMul (num 3) standardDeviation)))
        if jsGeB (jsAbs (jsSub inside3 (num 0.9973002038534888))) tol then .ok false
        else .ok true

end NormalDistribution

end

/-! ### Evaluation lemmas for the JSNum operations -/

namespace JSNum

@[simp] theorem jsNeg_num (r : ℝ) : jsNeg (num r) = num (-r) := rfl

@[simp] theorem jsNeg_nan : jsNeg nan = nan := rfl

@[simp] theorem jsAdd_num_num (a b : ℝ) : jsAdd (num a) (num b) = num (a + b) := rfl

@[simp] theorem jsSub_num_num (a b : ℝ) : jsSub (num a) (num b) = num (a - b) := by
  simp [jsSub, jsAdd, sub_eq_add_neg]

@[simp] theorem jsMul_num_num (a b : ℝ) : jsMul (num a) (num b) = num (a * b) := rfl

theorem jsDiv_num_num {b : ℝ} (a : ℝ) (h : b ≠ 0) :
    jsDiv (num a) (num b) = num (a / b) := by
  simp [jsDiv, h]

@[simp] theorem jsExp_num (r : ℝ) : jsExp (num r) = num (Real.exp r) := rfl

theorem jsLog_num {r : ℝ} (h : 0 < r) : jsLog (num r) = num (Real.log r) := by
  simp [jsLog, h]

theorem jsSqrt_num {r : ℝ} (h : 0 ≤ r) : jsSqrt (num r) = num (Real.sqrt r) := by
  simp [jsSqrt, h]

@[simp] theorem jsAbs_num (r : ℝ) : jsAbs (num r) = num |r| := rfl

@[simp] theorem jsAtan_num (r : ℝ) : jsAtan (num r) = num (Real.arctan r) := rfl

@[simp] theorem jsTanh_num (r : ℝ) : jsTanh (num r) = num (Real.tanh r) := rfl

@[simp] theorem jsEqB_num_num (a b : ℝ) : jsEqB (num a) (num b) = decide (a = b) := rfl

@[simp] theorem jsEqB_num_posInf (a : ℝ) : jsEqB (num a) posInf = false := rfl

@[simp] theorem jsLtB_num_num (a b : ℝ) : jsLtB (num a) (num b) = decide (a < b) := rfl

@[simp] theorem jsLeB_num_num (a b : ℝ) : jsLeB (num a) (num b) = decide (a ≤ b) := rfl

@[simp] theorem jsGeB_num_num (a b : ℝ) : jsGeB (num a) (num b) = decide (b ≤ a) := rfl

@[simp] theorem jsIsNaN_num (r : ℝ) : jsIsNaN (num r) = false := rfl

@[simp] theorem jsIsNaN_nan : jsIsNaN nan = true := rfl

@[simp] theorem jsIsNaN_posInf : jsIsNaN posInf = false := rfl

@[simp] theorem jsIsNaN_negInf : jsIsNaN negInf = false := rfl

@[simp] theorem jsAdd_nan_right (x : JSNum) : jsAdd x nan = nan := by
  cases x <;> rfl

@[simp] theorem jsAdd_nan_left (x : JSNum) : jsAdd nan x = nan := by
  cases x <;> rfl

@[simp] theorem jsMul_nan_right (x : JSNum) : jsMul x nan = nan := by
  cases x <;> rfl

@[simp] theorem jsMul_nan_left (x : JSNum) : jsMul nan x = nan := by
  cases x <;> rfl

@[simp] theorem jsDiv_nan_right (x : JSNum) : jsDiv x nan = nan := by
  cases x <;> rfl

@[simp] theorem jsDiv_nan_left (x : JSNum) : jsDiv nan x = nan := by
  cases x <;> rfl

@[simp] theorem jsSub_nan_right (x : JSNum) : jsSub x nan = nan := by
  cases x <;> rfl

@[simp] theorem jsSub_nan_left (x : JSNum) : jsSub nan x = nan := by
  cases x <;> rfl

/-- The two-iteration loop of `acklamIerfc`, unrolled. -/
theorem range_two_foldl {α : Type} (f : α → ℕ → α) (a : α) :
    (List.range 2).foldl f a = f (f a 0) 1 := rfl

end JSNum

/-! ### chebyshevErf on finite arguments computes the real formula -/

theorem chebyshevErf_num (x : ℝ) : chebyshevErf (num x) = num (chebR x) := by
  by_cases hx : x = 0
  · subst hx
    simp [chebyshevErf, chebR]
  · have hz : (2 : ℝ) + |x| ≠ 0 := by positivity
    simp only [chebyshevErf, chebR, chebPoly, jsEqB_num_num, hx, decide_eq_true_eq,
      if_false, jsAbs_num, jsAdd_num_num, jsDiv_num_num _ hz, jsNeg_num, jsMul_num_num,
      jsSub_num_num, jsExp_num, jsGeB_num_num]
    rw [apply_ite num]

/-- Oddness of `chebR`. -/
theorem chebR_neg (x : ℝ) : chebR (-x) = -chebR x := by
  by_cases hx : x = 0
  · subst hx; simp [chebR]
  · rcases lt_or_gt_of_ne hx with hneg | hpos
    · have h1 : ¬(0 ≤ x) := not_le.mpr hneg
      have h2 : (0 : ℝ) ≤ -x := by linarith
      have hx' : (-x) ≠ 0 := by intro h; apply hx; linarith [neg_eq_zero.mp h]
      simp only [chebR, hx, hx', if_false, abs_neg, h1, h2, if_true]
      ring
    · have h1 : (0 : ℝ) ≤ x := le_of_lt hpos
      have h2 : ¬((0 : ℝ) ≤ -x) := by simp; linarith
      have hx' : (-x) ≠ 0 := by intro h; apply hx; linarith [neg_eq_zero.mp h]
      simp only [chebR, hx, hx', if_false, abs_neg, h1, h2, if_true]
      ring

/-! ### Claim C8: symmetry and limits of chebyshevErf -/

/-- C8: for every finite x, `chebyshevErf(−x) = −chebyshevErf(x)` and
`chebyshevErf(0) = 0` exactly (the `x === 0` special case and the sign
branch); moreover `chebyshevErf(+∞) = 1` and `chebyshevErf(−∞) = −1`. -/
theorem chebyshevErf_odd_zero_limits :
    (∀ x : ℝ, chebyshevErf (jsNeg (num x)) = jsNeg (chebyshevErf (num x))) ∧
    chebyshevErf (num 0) = num 0 ∧
    chebyshevErf posInf = num 1 ∧
    chebyshevErf negInf = num (-1) := by
  refine ⟨fun x => ?_, ?_, ?_, ?_⟩
  · rw [jsNeg_num, chebyshevErf_num, chebyshevErf_num, chebR_neg, jsNeg_num]
  · rw [chebyshevErf_num]
    simp [chebR]
  · simp [chebyshevErf, jsEqB, jsAbs, jsAdd, jsDiv, jsMul, jsNeg, jsSub, jsExp,
      jsGeB, jsLeB]
  · simp [chebyshevErf, jsEqB, jsAbs, jsAdd, jsDiv, jsMul, jsNeg, jsSub, jsExp,
      jsGeB, jsLeB]

/-! ### Claim C3: saturation sentinels of acklamIerfc -/

/-- C3: `acklamIerfc` returns the finite sentinel −100.0 for every real
`p ≥ 2.0` and +100.0 for every real `p ≤ 0.0`. -/
theorem acklamIerfc_saturation :
    (∀ p : ℝ, 2 ≤ p → acklamIerfc (num p) = num (-100)) ∧
    (∀ p : ℝ, p ≤ 0 → acklamIerfc (num p) = num 100) := by
  constructor
  · intro p hp
    simp [acklamIerfc, hp]
  · intro p hp
    have h2 : ¬(2 ≤ p) := by linarith
    simp [acklamIerfc, h2, hp]

/-- Witness for C3 at the boundary inputs p = 2 and p = 0. -/
theorem acklamIerfc_saturation_witness :
    acklamIerfc (num 2) = num (-100) ∧ acklamIerfc (num 0) = num 100 :=
  ⟨acklamIerfc_saturation.1 2 le_rfl, acklamIerfc_saturation.2 0 le_rfl⟩

/-! ### Claim C10: NaN propagation through acklamIerfc -/

/-- C10: `acklamIerfc(NaN) = NaN`: both saturation guards are false on NaN
and the NaN propagates through the reflection, logarithm, initial guess and
both Halley iterations. -/
theorem acklamIerfc_nan : acklamIerfc nan = nan := by
  simp [acklamIerfc, range_two_foldl, halleyStep, acklamInitGuess, chebyshevErf,
    jsGeB, jsLeB, jsLtB, jsEqB, jsSub, jsAdd, jsNeg, jsMul, jsDiv, jsSqrt,
    jsLog, jsExp, jsAbs]

/-! ### Claim C4: soranzoErf at −∞ (the x⁴ = ∞ guard ignores the sign) -/

/-- C4 (failing input): `soranzoErf(−∞)` takes the `x⁴ === Infinity` early
return and yields exactly 1.0 — not the −1 required of an erf approximation
at −∞, and in contradiction with the odd-symmetry property at +∞. -/
theorem soranzoErf_negInf_eval :
    soranzoErf negInf = num 1 ∧ (num 1 : JSNum) ≠ num (-1) := by
  constructor
  · simp [soranzoErf, jsMul, jsEqB]
  · simp only [ne_eq, JSNum.num.injEq]
    norm_num

/-! ### Range bounds for chebyshevErf -/

/-- The Horner polynomial of `chebyshevErf` is at most
`1.26551223 + 0.6931471803` on `[0, 1]`. -/
theorem chebPoly_le {t : ℝ} (h0 : 0 ≤ t) (h1 : t ≤ 1) :
    chebPoly t ≤ 1.9586594103 := by
  have hexp : chebPoly t =
      1.00002368*t + 0.37409196*t^2 + 0.09678418*t^3 - 0.18628806*t^4
        + 0.27886807*t^5 - 1.13520398*t^6 + 1.48851587*t^7 - 0.82215223*t^8
        + 0.17087277*t^9 := by
    unfold chebPoly; ring
  have ht2 : t^2 ≤ t := by nlinarith [mul_nonneg (sub_nonneg.mpr h1) h0]
  have ht3 : t^3 ≤ t := by
    nlinarith [mul_nonneg (mul_nonneg h0 h0) (sub_nonneg.mpr h1),
      mul_nonneg (sub_nonneg.mpr h1) h0]
  have ht5 : t^5 ≤ t := by
    have h := pow_le_pow_of_le_one h0 h1 (show 1 ≤ 5 by norm_num)
    simpa using h
  have hq : 1.48851587*t^2 - 1.13520398*t + 0.27886807 ≤ 0.633 := by
    nlinarith [mul_nonneg (sub_nonneg.mpr h1) h0]
  have h567 : 0.27886807*t^5 - 1.13520398*t^6 + 1.48851587*t^7 ≤ 0.633*t := by
    nlinarith [mul_nonneg (pow_nonneg h0 5) (sub_nonneg.mpr hq), ht5]
  have h89 : -0.82215223*t^8 + 0.17087277*t^9 ≤ 0 := by
    nlinarith [mul_nonneg (pow_nonneg h0 8)
      (show (0:ℝ) ≤ 0.82215223 - 0.17087277*t by nlinarith)]
  have ht4 : 4*t - 3 ≤ t^4 := by
    nlinarith [mul_nonneg (sq_nonneg (t-1)) (show (0:ℝ) ≤ t^2 + 2*t + 3 by positivity)]
  rw [hexp]
  linarith

/-- Function `chebR` always lies in the closed interval [−1, 1]: the residual
`r = t·exp(−z² − 1.26551223 + poly(t))` satisfies `0 < r ≤ 2`. -/
theorem chebR_bounds (x : ℝ) : -1 ≤ chebR x ∧ chebR x ≤ 1 := by
  by_cases hx : x = 0
  · subst hx
    simp [chebR]
  · have hz0 : (0:ℝ) ≤ |x| := abs_nonneg x
    have h2z : (0:ℝ) < 2 + |x| := by linarith
    have ht0 : 0 < 2/(2+|x|) := by positivity
    have ht1 : 2/(2+|x|) ≤ 1 := by
      rw [div_le_one h2z]; linarith
    have hE : (-|x|) * |x| - 1.26551223 + chebPoly (2/(2+|x|)) ≤ Real.log 2 := by
      have hp := chebPoly_le ht0.le ht1
      have hlog := Real.log_two_gt_d9
      nlinarith [mul_nonneg hz0 hz0]
    have hr0 : 0 < 2/(2+|x|) *
        Real.exp ((-|x|) * |x| - 1.26551223 + chebPoly (2/(2+|x|))) := by positivity
    have hrle : 2/(2+|x|) *
        Real.exp ((-|x|) * |x| - 1.26551223 + chebPoly (2/(2+|x|))) ≤ 2 := by
      calc 2/(2+|x|) * Real.exp ((-|x|) * |x| - 1.26551223 + chebPoly (2/(2+|x|)))
          ≤ 1 * Real.exp ((-|x|) * |x| - 1.26551223 + chebPoly (2/(2+|x|))) :=
            mul_le_mul_of_nonneg_right ht1 (Real.exp_nonneg _)
        _ = Real.exp ((-|x|) * |x| - 1.26551223 + chebPoly (2/(2+|x|))) := one_mul _
        _ ≤ Real.exp (Real.log 2) := Real.exp_le_exp.mpr hE
        _ = 2 := Real.exp_log (by norm_num)
    unfold chebR
    simp only [hx, if_false]
    split_ifs with hge
    · exact ⟨by linarith, by linarith⟩
    · exact ⟨by linarith, by linarith⟩

/-! ### Computable natural-number mirror of the factorial computation -/

/-- The first two table entries as the exact integers they denote (the only
entries reachable for arguments up to 31): 1 and 16!. -/
def everySinxteenthFactorialNat : ℕ → ℕ
  | 0 => 1
  | 1 => 20922789888000
  | _ => 0

/-- On arguments up to 31 the table-times-product computation, carried out in
exact integers, is the exact factorial (the reachable table entries 1 and 16!
are exact; from 32 on the table literals are rounded doubles). -/
theorem factorialProductNat : ∀ n : ℕ, n ≤ 31 →
    ((List.range' (16 * (n / 16) + 1) (n + 1 - (16 * (n / 16) + 1))).foldl
      (fun s i => s * i) 1) * everySinxteenthFactorialNat (n / 16) = Nat.factorial n := by
  decide

theorem foldl_mul_cast (l : List ℕ) :
    ∀ c : ℕ, l.foldl (fun (s : ℝ) (i : ℕ) => s * (i : ℝ)) (c : ℝ) =
      ((l.foldl (fun s i => s * i) c : ℕ) : ℝ) := by
  induction l with
  | nil => intro c; rfl
  | cons a l ih =>
    intro c
    simp only [List.foldl_cons]
    rw [show ((c : ℝ) * (a : ℝ)) = ((c * a : ℕ) : ℝ) by push_cast; ring]
    exact ih (c * a)

theorem factorialValue_eq_factorial {n : ℕ} (h : n ≤ 31) :
    factorialValue n = ((Nat.factorial n : ℕ) : ℝ) := by
  have htab : everySinxteenthFactorial (n / 16) =
      ((everySinxteenthFactorialNat (n / 16) : ℕ) : ℝ) := by
    have h16 : n / 16 = 0 ∨ n / 16 = 1 := by omega
    rcases h16 with h16 | h16 <;>
      rw [h16] <;>
      norm_num [everySinxteenthFactorial, everySinxteenthFactorialNat]
  have h1 := foldl_mul_cast
    (List.range' (16 * (n / 16) + 1) (n + 1 - (16 * (n / 16) + 1))) 1
  simp only [Nat.cast_one] at h1
  unfold factorialValue
  rw [h1, htab, ← Nat.cast_mul, factorialProductNat n h]

/-! ### Claim C5: value ranges of the erf strategies -/

/-- Membership in the closed interval [−1, 1]: only a finite value in that
range qualifies (NaN and the infinities do not). -/
def inUnitInterval (y : JSNum) : Prop := ∃ r : ℝ, y = num r ∧ -1 ≤ r ∧ r ≤ 1

theorem tanh_mem (v : ℝ) : -1 ≤ Real.tanh v ∧ Real.tanh v ≤ 1 := by
  have hc := Real.cosh_pos v
  have h1 : Real.cosh v - Real.sinh v = Real.exp (-v) := by
    rw [Real.cosh_eq, Real.sinh_eq]; ring
  have h2 : Real.cosh v + Real.sinh v = Real.exp v := by
    rw [Real.cosh_eq, Real.sinh_eq]; ring
  constructor
  · rw [Real.tanh_eq_sinh_div_cosh, le_div_iff₀ hc]
    linarith [Real.exp_pos v]
  · rw [Real.tanh_eq_sinh_div_cosh, div_le_one hc]
    linarith [Real.exp_pos (-v)]

theorem chebyshevErf_posInf : chebyshevErf posInf = num 1 := by
  simp [chebyshevErf, jsEqB, jsAbs, jsAdd, jsDiv, jsMul, jsNeg, jsSub, jsExp,
    jsGeB, jsLeB]

theorem chebyshevErf_negInf : chebyshevErf negInf = num (-1) := by
  simp [chebyshevErf, jsEqB, jsAbs, jsAdd, jsDiv, jsMul, jsNeg, jsSub, jsExp,
    jsGeB, jsLeB]

theorem vazquezLealErf_posInf : vazquezLealErf posInf = num 1 := by
  norm_num [vazquezLealErf, jsMul, jsAtan, jsSub, jsAdd, jsNeg, jsTanh]

theorem vazquezLealErf_negInf : vazquezLealErf negInf = num (-1) := by
  norm_num [vazquezLealErf, jsMul, jsAtan, jsSub, jsAdd, jsNeg, jsTanh]

theorem soranzoErf_posInf : soranzoErf posInf = num 1 := by
  simp [soranzoErf, jsMul, jsEqB]

theorem soranzoErf_negInf : soranzoErf negInf = num 1 := by
  simp [soranzoErf, jsMul, jsEqB]

theorem vazquezLealErf_num_mem (r : ℝ) : inUnitInterval (vazquezLealErf (num r)) := by
  simp only [vazquezLealErf, jsMul_num_num, jsAtan_num, jsSub_num_num, jsTanh_num]
  exact ⟨_, rfl, (tanh_mem _).1, (tanh_mem _).2⟩

theorem soranzoErf_num_mem (r : ℝ) : inUnitInterval (soranzoErf (num r)) := by
  have key : ∀ y : ℝ, y ≤ 0 →
      inUnitInterval (num (Real.sqrt (1 - Real.exp y))) ∧
        inUnitInterval (num (-Real.sqrt (1 - Real.exp y))) := by
    intro y hy
    have h1 : Real.exp y ≤ 1 := Real.exp_le_one_iff.mpr hy
    have h0 := Real.exp_pos y
    have hs0 := Real.sqrt_nonneg (1 - Real.exp y)
    have hs1 : Real.sqrt (1 - Real.exp y) ≤ 1 := Real.sqrt_le_one.mpr (by linarith)
    exact ⟨⟨_, rfl, by linarith, hs1⟩, ⟨_, rfl, by linarith, by linarith⟩⟩
  have hD0 : (0:ℝ) < 1 + 0.1480931*(r*r) + 5.16e-4*(r*r*(r*r)) := by
    nlinarith [mul_self_nonneg r, mul_self_nonneg (r*r)]
  have hN : (-(r*r)) * (1.2735457 + 0.1487936*(r*r)) ≤ 0 := by
    nlinarith [mul_self_nonneg r, mul_self_nonneg (r*r)]
  have hA : (-(r*r)) * (1.2735457 + 0.1487936*(r*r)) /
      (1 + 0.1480931*(r*r) + 5.16e-4*(r*r*(r*r))) ≤ 0 :=
    div_nonpos_of_nonpos_of_nonneg hN hD0.le
  have hrad0 : 0 ≤ 1 - Real.exp ((-(r*r)) * (1.2735457 + 0.1487936*(r*r)) /
      (1 + 0.1480931*(r*r) + 5.16e-4*(r*r*(r*r)))) := by
    have := Real.exp_le_one_iff.mpr hA
    linarith
  have heval : soranzoErf (num r) = (if (0:ℝ) ≤ r
      then num (Real.sqrt (1 - Real.exp ((-(r*r)) * (1.2735457 + 0.1487936*(r*r)) /
        (1 + 0.1480931*(r*r) + 5.16e-4*(r*r*(r*r))))))
      else num (-Real.sqrt (1 - Real.exp ((-(r*r)) * (1.2735457 + 0.1487936*(r*r)) /
        (1 + 0.1480931*(r*r) + 5.16e-4*(r*r*(r*r))))))) := by
    simp only [soranzoErf, jsMul_num_num, jsEqB_num_posInf, Bool.false_eq_true, if_false,
      jsNeg_num, jsAdd_num_num, jsDiv_num_num _ (ne_of_gt hD0), jsExp_num, jsSub_num_num,
      jsSqrt_num hrad0, jsGeB_num_num, decide_eq_true_eq]
  rw [heval]
  split_ifs
  · exact (key _ hA).1
  · exact (key _ hA).2

/-- C5 amended: the three non-Taylor strategies return a value in the closed
interval [−1, 1] for every finite or infinite input. -/
theorem nonTaylor_erf_range :
    ∀ x : JSNum, x ≠ nan →
      inUnitInterval (chebyshevErf x) ∧ inUnitInterval (vazquezLealErf x) ∧
        inUnitInterval (soranzoErf x) := by
  intro x hx
  cases x with
  | nan => exact absurd rfl hx
  | posInf =>
    rw [chebyshevErf_posInf, vazquezLealErf_posInf, soranzoErf_posInf]
    exact ⟨⟨1, rfl, by norm_num, by norm_num⟩, ⟨1, rfl, by norm_num, by norm_num⟩,
      ⟨1, rfl, by norm_num, by norm_num⟩⟩
  | negInf =>
    rw [chebyshevErf_negInf, vazquezLealErf_negInf, soranzoErf_negInf]
    exact ⟨⟨-1, rfl, by norm_num, by norm_num⟩, ⟨-1, rfl, by norm_num, by norm_num⟩,
      ⟨1, rfl, by norm_num, by norm_num⟩⟩
  | num r =>
    refine ⟨?_, vazquezLealErf_num_mem r, soranzoErf_num_mem r⟩
    rw [chebyshevErf_num]
    exact ⟨chebR r, rfl, (chebR_bounds r).1, (chebR_bounds r).2⟩

/-- Witness for the amended C5 at the input 0. -/
theorem nonTaylor_erf_range_witness :
    (num 0 ≠ nan) ∧
      (inUnitInterval (chebyshevErf (num 0)) ∧ inUnitInterval (vazquezLealErf (num 0)) ∧
        inUnitInterval (soranzoErf (num 0))) :=
  ⟨fun h => JSNum.noConfusion h, nonTaylor_erf_range (num 0) (fun h => JSNum.noConfusion h)⟩

theorem foldl_taylor_nan (x : JSNum) (l : List ℕ) :
    l.foldl (fun b index => jsAdd b (taylorTerm x index)) nan = nan := by
  induction l with
  | nil => rfl
  | cons a l ih =>
    simp only [List.foldl_cons, jsAdd_nan_left]
    exact ih

theorem taylorErf_posInf_eq_nan : taylorErf posInf = nan := by
  have hr : List.range 41 = 0 :: 1 :: 2 :: List.range' 3 38 := by
    rw [List.range_eq_range']
    rfl
  have e0 : jsAdd (num 0) (taylorTerm posInf 0) = num 1 := by
    norm_num [taylorTerm, jsPowNat, factorialOfNat, jsMul, jsDiv, jsAdd,
      factorialValue_eq_factorial, Nat.factorial]
  have e1 : jsAdd (num 1) (taylorTerm posInf 1) = negInf := by
    norm_num [taylorTerm, jsPowNat, factorialOfNat, jsMul, jsDiv, jsAdd,
      factorialValue_eq_factorial, Nat.factorial]
  have e2 : jsAdd negInf (taylorTerm posInf 2) = nan := by
    norm_num [taylorTerm, jsPowNat, factorialOfNat, jsMul, jsDiv, jsAdd,
      factorialValue_eq_factorial, Nat.factorial]
  show jsMul (jsMul (num 1.1283791670955126) posInf)
      ((List.range 41).foldl (fun b index => jsAdd b (taylorTerm posInf index)) (num 0)) = nan
  rw [hr]
  simp only [List.foldl_cons, e0, e1, e2, foldl_taylor_nan, jsMul_nan_right]

/-- C5 counterexample: at the (allowed) infinite input +∞, the Taylor
strategy at its default degree returns NaN, which is not in [−1, 1]. -/
theorem taylorErf_posInf_not_in_range : ¬ inUnitInterval (taylorErf posInf) := by
  rw [taylorErf_posInf_eq_nan]
  rintro ⟨r, h, -, -⟩
  exact JSNum.noConfusion h

/-! ### Claim C9: the factorial collaborator contract -/

/-- C9 amended: `factorial` throws for every negative argument, returns NaN
on NaN, returns +∞ whenever `floor(x) > 170` (including at +∞), and for
`0 ≤ floor(x) ≤ 170` returns the precomputed sixteenth-factorial table entry
times the remaining direct product; that value is the exact factorial of
`floor(x)` for `floor(x) ≤ 31` (in particular `factorial(0) = 1` and
`factorial(5) = 120`), and `factorial(171) = +∞`. -/
theorem factorial_contract :
    (∀ r : ℝ, r < 0 → factorial (num r) = .error (.negativeArgument (num r))) ∧
    factorial negInf = .error (.negativeArgument negInf) ∧
    factorial nan = .ok nan ∧
    (∀ r : ℝ, 0 ≤ r → 170 < ⌊r⌋₊ → factorial (num r) = .ok posInf) ∧
    factorial posInf = .ok posInf ∧
    (∀ r : ℝ, 0 ≤ r → ⌊r⌋₊ ≤ 170 → factorial (num r) = .ok (num (factorialValue ⌊r⌋₊))) ∧
    (∀ n : ℕ, n ≤ 31 → factorialValue n = ((Nat.factorial n : ℕ) : ℝ)) ∧
    factorial (num 0) = .ok (num 1) ∧
    factorial (num 5) = .ok (num 120) ∧
    factorial (num 171) = .ok posInf := by
  refine ⟨fun r hr => ?_, ?_, ?_, fun r h0 h170 => ?_, ?_, fun r h0 h170 => ?_,
    fun n hn => factorialValue_eq_factorial hn, ?_, ?_, ?_⟩
  · simp [factorial, hr]
  · simp [factorial, jsLtB]
  · simp [factorial, jsLtB]
  · have hlt : ¬(r < 0) := not_lt.mpr h0
    simp [factorial, hlt, h170]
  · simp [factorial, jsLtB]
  · have hlt : ¬(r < 0) := not_lt.mpr h0
    simp [factorial, hlt, not_lt.mpr h170]
  · have h0 : factorialValue 0 = 1 := by
      rw [factorialValue_eq_factorial (by norm_num)]
      norm_num [Nat.factorial]
    norm_num [factorial, Nat.floor_zero, h0]
  · have h5 : factorialValue 5 = 120 := by
      rw [factorialValue_eq_factorial (by norm_num)]
      norm_num [Nat.factorial]
    norm_num [factorial, Nat.floor_ofNat, h5]
  · norm_num [factorial, Nat.floor_ofNat]

/-- Witness for the amended C9 at concrete inputs −1, 200, and 5. -/
theorem factorial_contract_witness :
    ((-1:ℝ) < 0 ∧ factorial (num (-1)) = .error (.negativeArgument (num (-1)))) ∧
    ((0:ℝ) ≤ 200 ∧ 170 < ⌊(200:ℝ)⌋₊ ∧ factorial (num 200) = .ok posInf) ∧
    ((0:ℝ) ≤ 5 ∧ ⌊(5:ℝ)⌋₊ ≤ 170 ∧
      factorial (num 5) = .ok (num (factorialValue ⌊(5:ℝ)⌋₊))) ∧
    (5 ≤ 31 ∧ factorialValue 5 = ((Nat.factorial 5 : ℕ) : ℝ)) :=
  ⟨⟨by norm_num, factorial_contract.1 (-1) (by norm_num)⟩,
    ⟨by norm_num, by norm_num [Nat.floor_ofNat],
      factorial_contract.2.2.2.1 200 (by norm_num) (by norm_num [Nat.floor_ofNat])⟩,
    ⟨by norm_num, by norm_num [Nat.floor_ofNat],
      factorial_contract.2.2.2.2.2.1 5 (by norm_num) (by norm_num [Nat.floor_ofNat])⟩,
    ⟨by norm_num, factorial_contract.2.2.2.2.2.2.1 5 (by norm_num)⟩⟩

/-- C9 counterexample: at x = 32 the value returned is the table literal
`2.631308369336935e35` — the rounded double written in the source — which is
not the exact 32!. -/
theorem factorial_32_not_exact :
    factorial (num 32) ≠ Except.ok (num ((Nat.factorial 32 : ℕ) : ℝ)) := by
  have heval : factorial (num 32) = .ok (num (factorialValue 32)) := by
    norm_num [factorial, jsLtB, Nat.floor_ofNat]
  have hval : factorialValue 32 = 2.631308369336935e35 := by
    norm_num [factorialValue, everySinxteenthFactorial, List.range']
  have hfact : (Nat.factorial 32 : ℕ) = 263130836933693530167218012160000000 := by
    decide
  rw [heval, hval, hfact]
  intro h
  simp only [Except.ok.injEq, JSNum.num.injEq] at h
  norm_num at h

/-! ### Claim C1: the structure of acklamIerfc -/

/-- C1 amended: for every p strictly between 0 and 2, `acklamIerfc(p)`
computes the reflection `pp = p if p < 1 else 2 − p`, then
`t = √(−2·ln(pp/2))`, then the initial rational-polynomial guess, then
exactly two iterations of the code's Halley step
`x ← x + err/(1.12837916709551257·exp(−√x) − x·err)` with
`err = chebyshevErf(x) − pp` (the error function is the hard-wired Chebyshev
approximation; no caller-supplied one exists), and finally negates the
result when p ≥ 1. -/
theorem acklamIerfc_structure (p : ℝ) (h0 : 0 < p) (h2 : p < 2) :
    acklamIerfc (num p) =
      (let pp : ℝ := if p < 1 then p else 2 - p
       let t : ℝ := Real.sqrt (-2 * Real.log (pp * 0.5))
       let x2 := halleyStep (num pp) (halleyStep (num pp) (acklamInitGuess (num t)))
       if p < 1 then x2 else jsNeg x2) := by
  have hg1 : ¬(2 ≤ p) := not_le.mpr h2
  have hg2 : ¬(p ≤ 0) := not_le.mpr h0
  simp only [acklamIerfc, range_two_foldl, jsGeB_num_num, jsLeB_num_num,
    jsLtB_num_num, decide_eq_true_eq, hg1, hg2, if_false]
  by_cases hp1 : p < 1
  · simp only [hp1, if_true]
    have hpp : (0:ℝ) < p * 0.5 := by linarith
    have hlog : Real.log (p * 0.5) < 0 := Real.log_neg hpp (by linarith)
    have hsq : (0:ℝ) ≤ -2 * Real.log (p * 0.5) := by linarith
    rw [jsMul_num_num, jsLog_num hpp, jsMul_num_num, jsSqrt_num hsq]
  · simp only [hp1, if_false, jsSub_num_num]
    have hpp : (0:ℝ) < (2 - p) * 0.5 := by linarith
    have hlog : Real.log ((2 - p) * 0.5) < 0 := by
      apply Real.log_neg hpp
      have h1 : (1:ℝ) ≤ p := not_lt.mp hp1
      linarith
    have hsq : (0:ℝ) ≤ -2 * Real.log ((2 - p) * 0.5) := by linarith
    rw [jsMul_num_num, jsLog_num hpp, jsMul_num_num, jsSqrt_num hsq]

/-- Witness for the amended C1 at p = 1/2. -/
theorem acklamIerfc_structure_witness :
    (0:ℝ) < 1/2 ∧ (1/2:ℝ) < 2 ∧
      acklamIerfc (num (1/2)) =
        (let pp : ℝ := if (1/2:ℝ) < 1 then 1/2 else 2 - 1/2
         let t : ℝ := Real.sqrt (-2 * Real.log (pp * 0.5))
         let x2 := halleyStep (num pp) (halleyStep (num pp) (acklamInitGuess (num t)))
         if (1/2:ℝ) < 1 then x2 else jsNeg x2) :=
  ⟨by norm_num, by norm_num, acklamIerfc_structure (1/2) (by norm_num) (by norm_num)⟩

/-- C1 counterexample: the Halley update step the claim describes (with the
extra factor `·x` after the exponential) disagrees with the step the code
performs, already at the state x = 4, pp = 1. -/
theorem halleyStep_ne_claimC1_step :
    halleyStep (num 1) (num 4) ≠ halleyStepClaimC1 (num 1) (num 4) := by
  have hch : chebyshevErf (num 4) = num (chebR 4) := chebyshevErf_num 4
  have hs4 : Real.sqrt (4:ℝ) = 2 := by
    rw [show (4:ℝ) = 2^2 by norm_num, Real.sqrt_sq (by norm_num : (0:ℝ) ≤ 2)]
  have hr4 : 0 < 1 - chebR 4 := by
    have h40 : (4:ℝ) ≠ 0 := by norm_num
    have hcheb : chebR 4 = 1 - (2/(2+|(4:ℝ)|) *
        Real.exp ((-|(4:ℝ)|) * |(4:ℝ)| - 1.26551223 + chebPoly (2/(2+|(4:ℝ)|)))) := by
      unfold chebR
      rw [if_neg h40, if_pos (by norm_num : (0:ℝ) ≤ 4)]
    rw [hcheb]
    have hpos : (0:ℝ) < 2/(2+|(4:ℝ)|) *
        Real.exp ((-|(4:ℝ)|) * |(4:ℝ)| - 1.26551223 + chebPoly (2/(2+|(4:ℝ)|))) := by
      positivity
    linarith
  have hE : (0:ℝ) < Real.exp (-2:ℝ) := Real.exp_pos _
  have herr : chebR 4 - 1 < 0 := by linarith
  have hD1 : 0 < 1.12837916709551257 * Real.exp (-2:ℝ) - 4 * (chebR 4 - 1) := by
    nlinarith
  have hD2 : 0 < (1.1283791670955126 * Real.exp (-2:ℝ)) * 4 - 4 * (chebR 4 - 1) := by
    nlinarith
  have hDD : 1.12837916709551257 * Real.exp (-2:ℝ) - 4 * (chebR 4 - 1) <
      (1.1283791670955126 * Real.exp (-2:ℝ)) * 4 - 4 * (chebR 4 - 1) := by
    nlinarith
  have e1 : halleyStep (num 1) (num 4) =
      num (4 + (chebR 4 - 1) /
        (1.12837916709551257 * Real.exp (-2:ℝ) - 4 * (chebR 4 - 1))) := by
    simp only [halleyStep, hch, jsSub_num_num,
      jsSqrt_num (by norm_num : (0:ℝ) ≤ 4), hs4, jsNeg_num, jsExp_num,
      jsMul_num_num, jsDiv_num_num _ (ne_of_gt hD1), jsAdd_num_num]
  have e2 : halleyStepClaimC1 (num 1) (num 4) =
      num (4 + (chebR 4 - 1) /
        ((1.1283791670955126 * Real.exp (-2:ℝ)) * 4 - 4 * (chebR 4 - 1))) := by
    simp only [halleyStepClaimC1, hch, jsSub_num_num,
      jsSqrt_num (by norm_num : (0:ℝ) ≤ 4), hs4, jsNeg_num, jsExp_num,
      jsMul_num_num, jsDiv_num_num _ (ne_of_gt hD2), jsAdd_num_num]
  rw [e1, e2]
  intro h
  have h2 := JSNum.num.inj h
  have hfrac : (chebR 4 - 1) /
      (1.12837916709551257 * Real.exp (-2:ℝ) - 4 * (chebR 4 - 1)) =
      (chebR 4 - 1) /
      ((1.1283791670955126 * Real.exp (-2:ℝ)) * 4 - 4 * (chebR 4 - 1)) := by
    linarith
  rw [div_eq_div_iff (ne_of_gt hD1) (ne_of_gt hD2)] at hfrac
  have hcan := mul_left_cancel₀ (ne_of_lt herr) hfrac
  linarith

/-! ### Claim C2: construction validation -/

/-- The "standardDeviation <= 0" validation condition, read at the value
level: true of a finite non-positive value and of −∞ (NaN and +∞ pass). -/
noncomputable instance : DecidableEq JSNum := fun _ _ => Classical.dec _

def sdNonPositive : JSNum → Prop
  | num v => v ≤ 0
  | negInf => True
  | _ => False

noncomputable instance sdNonPositive.dec (s : JSNum) : Decidable (sdNonPositive s) :=
  match s with
  | num v => inferInstanceAs (Decidable (v ≤ 0))
  | negInf => inferInstanceAs (Decidable True)
  | nan => inferInstanceAs (Decidable False)
  | posInf => inferInstanceAs (Decidable False)

theorem jsIsNaN_eq_true_iff (x : JSNum) : jsIsNaN x = true ↔ x = nan := by
  cases x <;> simp [jsIsNaN]

theorem jsLeB_zero_iff (s : JSNum) : jsLeB s (num 0) = true ↔ sdNonPositive s := by
  cases s <;> simp [jsLeB, sdNonPositive]

/-- C2: construction through `of` (and `standard`, which forwards mean 0 and
standard deviation 1) throws exactly when the resolved mean is NaN, the
resolved standard deviation is NaN or non-positive, or the erf argument is
`null`; the non-positive-standard-deviation error carries the offending
value; otherwise it succeeds with the given mean, standard deviation and erf
(defaults: mean 0, standard deviation 1, Chebyshev erf). -/
theorem construction_spec :
    (∀ (m s : Option JSNum) (e : Option (Option (JSNum → JSNum))),
      NormalDistribution.of m s e =
        (let m' := m.getD (num 0)
         let s' := s.getD (num 1)
         let e' := e.getD (some chebyshevErf)
         if m' = nan then .error .meanNaN
         else if s' = nan then .error .standardDeviationNaN
         else if sdNonPositive s' then .error (.standardDeviationNotPositive s')
         else match e' with
           | none => .error .erfMissing
           | some f => .ok ⟨m', s', f⟩)) ∧
    (∀ e, NormalDistribution.standard e =
      NormalDistribution.of (some (num 0)) (some (num 1)) e) ∧
    NormalDistribution.of none none none = .ok ⟨num 0, num 1, chebyshevErf⟩ := by
  refine ⟨fun m s e => ?_, fun e => rfl, ?_⟩
  · unfold NormalDistribution.of NormalDistribution.construct
    simp only []
    generalize m.getD (num 0) = m'
    generalize s.getD (num 1) = s'
    generalize e.getD (some chebyshevErf) = e'
    cases m' <;> cases s' <;>
      simp [jsIsNaN, jsLeB, sdNonPositive]
  · simp [NormalDistribution.of, NormalDistribution.construct, jsIsNaN, jsLeB]

/-! ### Claim C6: `between` -/

/-- C6: for any distribution and real bounds, `between` returns exactly 0
whenever `startInterval ≥ endInterval` — without evaluating `cdf` in that
case, witnessed by the result being independent of the configured erf — and
otherwise returns `cdf(endInterval) − cdf(startInterval)`. -/
theorem between_spec :
    (∀ (d : NormalDistribution) (s e : ℝ), e ≤ s →
      NormalDistribution.between d (num s) (num e) = num 0) ∧
    (∀ (μ σ : JSNum) (f g : JSNum → JSNum) (s e : JSNum), jsGeB s e = true →
      NormalDistribution.between ⟨μ, σ, f⟩ s e = NormalDistribution.between ⟨μ, σ, g⟩ s e) ∧
    (∀ (d : NormalDistribution) (s e : ℝ), s < e →
      NormalDistribution.between d (num s) (num e) =
        jsSub (NormalDistribution.cdf d (num e)) (NormalDistribution.cdf d (num s))) := by
  refine ⟨fun d s e h => ?_, fun μ σ f g s e h => ?_, fun d s e h => ?_⟩
  · simp [NormalDistribution.between, h]
  · simp [NormalDistribution.between, h]
  · have hge : ¬(e ≤ s) := not_le.mpr h
    simp [NormalDistribution.between, hge]

/-- Witness for C6: the standard distribution with the reversed interval
(1, 0) and the proper interval (0, 1). -/
theorem between_spec_witness :
    ((0:ℝ) ≤ 1 ∧
      NormalDistribution.between ⟨num 0, num 1, chebyshevErf⟩ (num 1) (num 0) = num 0) ∧
    ((0:ℝ) < 1 ∧
      NormalDistribution.between ⟨num 0, num 1, chebyshevErf⟩ (num 0) (num 1) =
        jsSub (NormalDistribution.cdf ⟨num 0, num 1, chebyshevErf⟩ (num 1))
          (NormalDistribution.cdf ⟨num 0, num 1, chebyshevErf⟩ (num 0))) :=
  ⟨⟨by norm_num, between_spec.1 ⟨num 0, num 1, chebyshevErf⟩ 1 0 (by norm_num)⟩,
    ⟨by norm_num, between_spec.2.2 ⟨num 0, num 1, chebyshevErf⟩ 0 1 (by norm_num)⟩⟩

/-! ### Claim C7: `isNormalDistributed` -/

/-- Lift of a real-valued caller-supplied cdf to the JSNum world (identity on
the special values, which it is never applied to in the checked bands). -/
def liftReal (f : ℝ → ℝ) : JSNum → JSNum
  | num r => num (f r)
  | x => x

theorem of_some_error_iff (m s : JSNum) :
    (∃ err, NormalDistribution.of (some m) (some s) none = .error err) ↔
      (m = nan ∨ s = nan ∨ sdNonPositive s) := by
  unfold NormalDistribution.of NormalDistribution.construct
  cases m <;> cases s <;>
    simp only [Option.getD_some, Option.getD_none, jsIsNaN, jsLeB, sdNonPositive] <;>
    split_ifs <;>
    simp_all

theorem isNormalDistributed_error_iff (c : JSNum → JSNum) (m s : JSNum)
    (t : Option JSNum) :
    (∃ err, NormalDistribution.isNormalDistributed c m s t = .error err) ↔
      (m = nan ∨ s = nan ∨ sdNonPositive s) := by
  unfold NormalDistribution.isNormalDistributed
  cases m <;> cases s <;>
    simp only [jsIsNaN, jsLeB, sdNonPositive] <;>
    split_ifs <;>
    simp_all

/-- C7: `isNormalDistributed` fails on exactly the same (mean,
standardDeviation) inputs as construction (NaN mean, NaN or non-positive
standard deviation), the default tolerance is 0.005, and for a valid pair and
a real-valued cdf it returns true iff each three-sigma band probability is
within the (strict) absolute tolerance of its theoretical constant, false
otherwise. -/
theorem isNormalDistributed_spec :
    (∀ (c : JSNum → JSNum) (m s : JSNum) (t : Option JSNum),
      (∃ err, NormalDistribution.isNormalDistributed c m s t = .error err) ↔
        (∃ err, NormalDistribution.of (some m) (some s) none = .error err)) ∧
    (∀ (c : JSNum → JSNum) (m s : JSNum),
      NormalDistribution.isNormalDistributed c m s none =
        NormalDistribution.isNormalDistributed c m s (some (num 0.005))) ∧
    (∀ (f : ℝ → ℝ) (m s tol : ℝ), 0 < s →
      (NormalDistribution.isNormalDistributed (liftReal f) (num m) (num s)
          (some (num tol)) = .ok true ↔
        (|f (m + s) - f (m - s) - 0.6826894772086507| < tol ∧
          |f (m + 2*s) - f (m - 2*s) - 0.954499740219751| < tol ∧
          |f (m + 3*s) - f (m - 3*s) - 0.9973002038534888| < tol))) ∧
    (∀ (f : ℝ → ℝ) (m s tol : ℝ), 0 < s →
      (NormalDistribution.isNormalDistributed (liftReal f) (num m) (num s)
          (some (num tol)) = .ok false ↔
        ¬(|f (m + s) - f (m - s) - 0.6826894772086507| < tol ∧
          |f (m + 2*s) - f (m - 2*s) - 0.954499740219751| < tol ∧
          |f (m + 3*s) - f (m - 3*s) - 0.9973002038534888| < tol))) := by
  have hband : ∀ (f : ℝ → ℝ) (m s tol : ℝ), 0 < s →
      NormalDistribution.isNormalDistributed (liftReal f) (num m) (num s)
        (some (num tol)) =
        .ok (decide (|f (m + s) - f (m - s) - 0.6826894772086507| < tol) &&
          (decide (|f (m + 2*s) - f (m - 2*s) - 0.954499740219751| < tol) &&
            decide (|f (m + 3*s) - f (m - 3*s) - 0.9973002038534888| < tol))) := by
    intro f m s tol hs
    have hsle : ¬(s ≤ 0) := not_le.mpr hs
    simp only [NormalDistribution.isNormalDistributed, Option.getD_some,
      jsIsNaN_num, Bool.false_eq_true, if_false, jsLeB_num_num, jsAdd_num_num,
      jsSub_num_num, jsMul_num_num, liftReal, jsAbs_num, jsGeB_num_num,
      decide_eq_true_eq, hsle]
    by_cases h1 : tol ≤ |f (m + s) - f (m - s) - 0.6826894772086507|
    · simp [h1, not_lt.mpr h1]
    · by_cases h2 : tol ≤ |f (m + 2*s) - f (m - 2*s) - 0.954499740219751|
      · simp [h1, h2, not_lt.mpr h2, not_le.mp h1]
      · by_cases h3 : tol ≤ |f (m + 3*s) - f (m - 3*s) - 0.9973002038534888|
        · simp [h1, h2, h3, not_lt.mpr h3, not_le.mp h1, not_le.mp h2]
        · simp [h1, h2, h3, not_le.mp h1, not_le.mp h2, not_le.mp h3]
  refine ⟨fun c m s t => ?_, fun c m s => ?_, fun f m s tol hs => ?_, fun f m s tol hs => ?_⟩
  · rw [isNormalDistributed_error_iff, of_some_error_iff]
  · have h : (0.5e-2 : ℝ) = 0.005 := by norm_num
    simp [NormalDistribution.isNormalDistributed, h]
  · rw [hband f m s tol hs]
    simp
  · rw [hband f m s tol hs]
    simp [not_and_or]

/-- Witness for C7: the constant-zero cdf with mean 0, standard deviation 1
and tolerance 1 passes all three bands. -/
theorem isNormalDistributed_spec_witness :
    NormalDistribution.isNormalDistributed (liftReal (fun _ => 0)) (num 0) (num 1)
      (some (num 1)) = .ok true := by
  rw [isNormalDistributed_spec.2.2.1 (fun _ => 0) 0 1 1 (by norm_num)]
  norm_num [abs_lt]
